import Mathlib

/-!
Verification development for the Spatial_Audio_Framework sources:
a shallow embedding of the md_malloc multidimensional-container layout
(src/framework/resources/md_malloc/md_malloc.c) and of the ambi_dec
codec lifecycle / decoding-matrix / HRTF-interpolation design described
by the internal headers (src/examples/ambi_dec/src/ambi_dec_internal.h,
src/examples/powermap/src/powermap_internal.h).
-/

namespace MdMalloc

/-- sizeof(void*) on the modelled platform (bytes); malloc2d/malloc3d store
pointer tables of this element size in front of the data region. -/
def ptrSize : Nat := 8

/-- Bytes occupied by the row-pointer table of malloc2d:
`dim1*sizeof(void*)` (md_malloc.c line 96). The data region pointer
`p2 = (unsigned char*)(ptr + dim1)` starts exactly here (line 101). -/
def table2Bytes (dim1 : Nat) : Nat := dim1 * ptrSize

/-- `stride = dim2*data_size` (md_malloc.c line 95). -/
def stride2 (dim2 ds : Nat) : Nat := dim2 * ds

/-- Total allocation of malloc2d: `dim1*sizeof(void*) + dim1*stride`
(md_malloc.c line 96). -/
def total2Bytes (dim1 dim2 ds : Nat) : Nat :=
  dim1 * ptrSize + dim1 * stride2 dim2 ds

/-- Total allocation of calloc2d: `calloc(dim1, sizeof(void*) + stride)`
(md_malloc.c line 113). -/
def calloc2Bytes (dim1 dim2 ds : Nat) : Nat :=
  dim1 * (ptrSize + stride2 dim2 ds)

/-- Total allocation of realloc2d: `dim1*sizeof(void*) + dim1*stride`
(md_malloc.c line 129). -/
def realloc2Bytes (dim1 dim2 ds : Nat) : Nat :=
  dim1 * ptrSize + dim1 * stride2 dim2 ds

/-- Byte offset, from the start of the allocated block, of the memory the
row pointer `ptr[i]` is set to: `ptr[i] = &p2[i*stride]`
(md_malloc.c lines 101-103; identical loops at 118-120 and 134-136). -/
def row2Ofs (dim1 dim2 ds i : Nat) : Nat :=
  table2Bytes dim1 + i * stride2 dim2 ds

/-- Byte offset of element `[i][j]` of a malloc2d container from the start
of the allocated block: `ptr[i]` plus `j` elements of `data_size` bytes. -/
def elem2Ofs (dim1 dim2 ds i j : Nat) : Nat :=
  row2Ofs dim1 dim2 ds i + j * ds

/-- Bytes occupied by the two pointer tables of malloc3d:
`dim1*sizeof(void**) + dim1*dim2*sizeof(void*)`; the data region
`p3 = (unsigned char*)(p2 + dim1*dim2)` starts here
(md_malloc.c lines 156, 161-162). -/
def table3Bytes (dim1 dim2 : Nat) : Nat :=
  dim1 * ptrSize + dim1 * dim2 * ptrSize

/-- `stride1 = dim2*dim3*data_size` (md_malloc.c line 154). -/
def stride3a (dim2 dim3 ds : Nat) : Nat := dim2 * dim3 * ds

/-- `stride2 = dim3*data_size` (md_malloc.c line 155). -/
def stride3b (dim3 ds : Nat) : Nat := dim3 * ds

/-- Total allocation of malloc3d:
`dim1*sizeof(void**) + dim1*dim2*sizeof(void*) + dim1*stride1`
(md_malloc.c line 156; realloc3d uses the same expression at line 201). -/
def total3Bytes (dim1 dim2 dim3 ds : Nat) : Nat :=
  dim1 * ptrSize + dim1 * dim2 * ptrSize + dim1 * stride3a dim2 dim3 ds

/-- Total allocation of calloc3d:
`calloc(dim1, sizeof(void**) + dim2*sizeof(void*) + stride1)`
(md_malloc.c line 179). -/
def calloc3Bytes (dim1 dim2 dim3 ds : Nat) : Nat :=
  dim1 * (ptrSize + dim2 * ptrSize + stride3a dim2 dim3 ds)

/-- Byte offset of the middle-level pointer cell target:
`ptr[i] = &p2[i*dim2]` (md_malloc.c lines 163-164), offsets measured
into the first pointer table region of size `dim1*sizeof(void**)`. -/
def row3Ofs (dim1 dim2 i : Nat) : Nat :=
  dim1 * ptrSize + i * dim2 * ptrSize

/-- Byte offset of the innermost row `p2[i*dim2+j] = &p3[i*stride1 + j*stride2]`
(md_malloc.c lines 165-167) from the start of the allocated block. -/
def inner3Ofs (dim1 dim2 dim3 ds i j : Nat) : Nat :=
  table3Bytes dim1 dim2 + i * stride3a dim2 dim3 ds + j * stride3b dim3 ds

/-- Byte offset of element `[i][j][k]` of a malloc3d container from the
start of the allocated block. -/
def elem3Ofs (dim1 dim2 dim3 ds i j k : Nat) : Nat :=
  inner3Ofs dim1 dim2 dim3 ds i j + k * ds

/-- free1d (md_malloc.c lines 82-88): `if(*ptr!=NULL){ free(*ptr); *ptr=NULL; }`.
The cell is modelled as `Option Nat` (a pointer value or NULL); the second
component lists the pointers actually passed to `free`. -/
def free1d (cell : Option Nat) : Option Nat × List Nat :=
  match cell with
  | some p => (none, [p])
  | none => (none, [])

/-- free2d (md_malloc.c lines 140-146); textually the same null-guarded
free-and-clear as free1d, at type `void***`. -/
def free2d (cell : Option Nat) : Option Nat × List Nat :=
  match cell with
  | some p => (none, [p])
  | none => (none, [])

/-- free3d (md_malloc.c lines 216-222); textually the same null-guarded
free-and-clear as free1d, at type `void****`. -/
def free3d (cell : Option Nat) : Option Nat × List Nat :=
  match cell with
  | some p => (none, [p])
  | none => (none, [])

end MdMalloc

namespace AmbiDec

/-- PROC_STATUS (ambi_dec_internal.h lines 64-67): whether the frame
processor is mid-frame (`ongoing`) or idle (`notOngoing`). -/
inductive PROC_STATUS
  | ongoing
  | notOngoing
deriving DecidableEq

/-- CODEC_STATUS. Modelled from the spec: the enum itself is declared in
ambi_dec.h, which is not under src; the spec gives CodecState as one of
NOT_INITIALIZED, INITIALIZING, INITIALIZED. -/
inductive CODEC_STATUS
  | notInitialised
  | initialising
  | initialised
deriving DecidableEq

/-- MIN_NUM_LOUDSPEAKERS (ambi_dec_internal.h line 80). -/
def MIN_NUM_LOUDSPEAKERS : Nat := 4

/-- NUM_DECODERS (ambi_dec_internal.h line 82): low- and high-frequency. -/
def NUM_DECODERS : Nat := 2

/-- NUM_EARS (ambi_dec_internal.h line 81). -/
def NUM_EARS : Nat := 2

/-- MAX_SH_ORDER (powermap_internal.h line 68; ambi_dec_internal.h line 77
defers to AMBI_DEC_MAX_SH_ORDER from the absent ambi_dec.h). -/
def MAX_SH_ORDER : Nat := 7

/-- MAX_NUM_SH_SIGNALS = (MAX_SH_ORDER+1)*(MAX_SH_ORDER+1)
(powermap_internal.h line 72; ambi_dec_internal.h line 78). -/
def MAX_NUM_SH_SIGNALS : Nat := (MAX_SH_ORDER + 1) * (MAX_SH_ORDER + 1)

/-- HOP_SIZE (ambi_dec_internal.h line 74). -/
def HOP_SIZE : Nat := 128

/-- HYBRID_BANDS = HOP_SIZE + 5 (ambi_dec_internal.h line 75). -/
def HYBRID_BANDS : Nat := HOP_SIZE + 5

/-- Loudspeaker direction in integer degrees, [azimuth, elevation]
(loudpkrs_dirs_deg, ambi_dec_internal.h line 174). -/
structure Speaker where
  azi : Int
  elev : Int
deriving DecidableEq

/-- Direction diametrically opposite a given one. -/
def antipode (d : Speaker) : Speaker :=
  { azi := (d.azi + 180) % 360, elev := -d.elev }

/-- Equality of directions up to full turns of azimuth. -/
def sameDir (a b : Speaker) : Bool :=
  (a.azi % 360 == b.azi % 360) && (a.elev == b.elev)

/-- Modelled from the spec: degenerate geometry where all loudspeakers are
colinear (each direction equal or antipodal to the first), making
triangulation impossible; the triangulation code itself is external. -/
def colinearDirs : List Speaker → Bool
  | [] => true
  | d :: rest => rest.all (fun x => sameDir x d || sameDir x (antipode d))

/-- UserParameters (ambi_dec_internal.h lines 166-179): master order,
loudspeaker directions, decoding method, maxrE flag, diffuse-field EQ,
transition frequency, binauralisation and HRIR source selection. -/
structure UserParams where
  masterOrder : Nat
  speakers : List Speaker
  decMethod : Nat
  rE_weight : Bool
  diffEQmode : Nat
  transitionFreq : ℚ
  binauraliseLS : Bool
  useDefaultHRIRsFLAG : Bool
  sofaPathId : Nat
deriving DecidableEq

/-- Decoding matrix in the FLAT nLoudspeakers x nSH layout used by
codecPars.M_dec (ambi_dec_internal.h line 99). -/
structure Matrix where
  rows : Nat
  cols : Nat
  entries : List ℚ
deriving DecidableEq

/-- Out-of-range placeholder matrix. -/
def defaultMatrix : Matrix := { rows := 0, cols := 0, entries := [] }

/-- Modelled from the spec: one entry of the external spherical-harmonic
decoding matrix routine (saf_hoa, out of scope); any deterministic
function of (method, geometry, order) satisfies the stated contracts. -/
def mkEntry (method : Nat) (spk : List Speaker) (order t : Nat) : ℚ :=
  (method : ℚ) + (order : ℚ) * (t : ℚ)
    + spk.foldl (fun acc d => acc + (d.azi : ℚ) + (d.elev : ℚ)) 0

/-- Modelled from the spec: `buildDecodeMatrix(method, geometry, order) ->
matrix[loudspeakers][harmonics]` with numHarmonics(order) = (order+1)^2. -/
def buildDecodeMatrix (method : Nat) (spk : List Speaker) (order : Nat) :
    Matrix :=
  { rows := spk.length,
    cols := (order + 1) ^ 2,
    entries := (List.range (spk.length * (order + 1) ^ 2)).map
      (mkEntry method spk order) }

/-- Modelled from the spec: maxrE gain taper per harmonic degree,
monotonically decreasing with degree n for a fixed order. -/
def maxrEweight (order n : Nat) : ℚ :=
  ((order + 1 - n : Nat) : ℚ) / ((order + 1 : Nat) : ℚ)

/-- Spherical-harmonic degree of flat channel c: the largest n (capped at
MAX_SH_ORDER) with n^2 ≤ c, i.e. the integer square root of c for the
channel counts in use. -/
def shDegree (c : Nat) : Nat :=
  (List.range (MAX_SH_ORDER + 1)).foldl
    (fun acc n => if n ^ 2 ≤ c then n else acc) 0

/-- Modelled from the spec: derive the maxrE-weighted matrix variant by
scaling the base matrix entries per harmonic degree (degree of flat
column c is shDegree c). -/
def applyMaxrE (order : Nat) (m : Matrix) : Matrix :=
  let es := (List.range (m.rows * m.cols)).map
    (fun t => m.entries.getD t 0 * maxrEweight order (shDegree (t % m.cols)))
  { m with entries := es }

/-- HrtfDatabase in filterbank form (codecPars lines 105-123): direction
count, HRIR length and sampling rate; `seed` stands for the loaded HRIR
data from which the filterbank magnitudes and ITDs are derived. -/
structure HrtfSet where
  N_hrir_dirs : Nat
  hrir_len : Nat
  hrir_fs : Nat
  seed : ℚ
deriving DecidableEq

/-- Modelled from the spec: hrtf_fb_mag, the per-band per-ear magnitude of
the HRTF filterbank coefficient of measurement direction i (the actual
filterbank conversion lives in saf_hrir, out of scope). -/
def dbMag (db : HrtfSet) (band ear i : Nat) : ℚ :=
  db.seed + (band : ℚ) + 2 * (ear : ℚ) + 3 * (i : ℚ)

/-- Modelled from the spec: itds_s, the interaural time difference of
measurement direction i in seconds. -/
def dbItd (db : HrtfSet) (i : Nat) : ℚ :=
  db.seed * ((i : ℚ) + 1) / 1000

/-- Modelled from the spec: the bundled default HRIR database. -/
def defaultHrtf : HrtfSet :=
  { N_hrir_dirs := 3, hrir_len := 32, hrir_fs := 48000, seed := 1 }

/-- Modelled from the spec: the HRIR set loaded from a SOFA file,
identified here by a numeric path id (the loader is out of scope). -/
def sofaHrtf (pathId : Nat) : HrtfSet :=
  { N_hrir_dirs := 3 + pathId, hrir_len := 32, hrir_fs := 48000,
    seed := (pathId : ℚ) + 2 }

/-- Modelled from the spec: HRTF database selection during rebuild, driven
by useDefaultHRIRsFLAG (ambi_dec_internal.h line 175). -/
def buildHrtf (p : UserParams) : HrtfSet :=
  if p.useDefaultHRIRsFLAG then defaultHrtf else sofaHrtf p.sofaPathId

/-- Modelled from the spec: amplitude-normalised VBAP weights; raw gains
are clamped below at 0 and scaled so they sum to 1 (saf_vbap is out of
scope; the spec requires convex weights, clamping for directions outside
the hull). -/
def mkVbapWeights (g1 g2 g3 : ℚ) : ℚ × ℚ × ℚ :=
  let c1 := max g1 0
  let c2 := max g2 0
  let c3 := max g3 0
  let s := c1 + c2 + c3
  if s = 0 then (c1, c2, c3) else (c1 / s, c2 / s, c3 / s)

/-- One row of the VBAP interpolation table: hrtf_vbap_gtableIdx holds 3
HRTF indices, hrtf_vbap_gtableComp the 3 weights (ambi_dec_internal.h
lines 117-118). -/
structure VbapEntry where
  idx : Nat × Nat × Nat
  comp : ℚ × ℚ × ℚ
deriving DecidableEq

/-- Modelled from the spec: raw (pre-normalisation) gains produced by the
external triangulation for table row i; deterministic and non-negative. -/
def rawGain (i : Nat) : ℚ × ℚ × ℚ :=
  (((i % 3 : Nat) : ℚ) + 1, (((i + 1) % 4 : Nat) : ℚ), 1)

/-- Modelled from the spec: the VBAP interpolation table derived from the
HRTF measurement directions, one entry of 3 indices and 3 normalised
weights per interpolation direction. -/
def buildVbapTable (db : HrtfSet) : List VbapEntry :=
  (List.range db.N_hrir_dirs).map (fun i =>
    { idx := (i, (i + 1) % db.N_hrir_dirs, (i + 2) % db.N_hrir_dirs),
      comp := mkVbapWeights (rawGain i).1 (rawGain i).2.1 (rawGain i).2.2 })

/-- Weighted combination of three scalars by an interpolation weight
triple. -/
def interpMag3 (w : ℚ × ℚ × ℚ) (m1 m2 m3 : ℚ) : ℚ :=
  w.1 * m1 + w.2.1 * m2 + w.2.2 * m3

/-- Interpolated per-band per-ear HRTF in polar form: the magnitude and
the linear-phase angle derived from the interpolated ITD are kept
separately (the complex value is mag * exp(i*phase)). -/
structure PolarResponse where
  mag : ℚ
  phase : ℚ
deriving DecidableEq

/-- Centre frequency of a hybrid band (freqVector, modelled at a 48 kHz
host rate). -/
def bandFreq (band : Nat) : ℚ :=
  (band : ℚ) * 48000 / (2 * (HOP_SIZE : ℚ))

/-- Sign of the ITD phase term for each ear. -/
def earSign (ear : Nat) : ℚ := if ear = 0 then 1 else -1

/-- Modelled from the spec: ambi_dec_interpHRTFs (declared at
ambi_dec_internal.h lines 198-215, implementation not under src):
interpolates the HRTF magnitude responses and the HRIR ITDs of the 3
nearest measured directions separately with amplitude-preserving VBAP
weights, then recombines the interpolated magnitude with a linear phase
term derived from the interpolated ITD. -/
def ambi_dec_interpHRTFs (db : HrtfSet) (w : ℚ × ℚ × ℚ)
    (idx : Nat × Nat × Nat) (band ear : Nat) : PolarResponse :=
  { mag := interpMag3 w (dbMag db band ear idx.1) (dbMag db band ear idx.2.1)
      (dbMag db band ear idx.2.2),
    phase := -(bandFreq band) * earSign ear
      * interpMag3 w (dbItd db idx.1) (dbItd db idx.2.1) (dbItd db idx.2.2) }

/-- Magnitude of a polar response: the modulus of mag * exp(i*phase). -/
def magnitudeOfResponse (r : PolarResponse) : ℚ := |r.mag|

/-- DecodingMatrixSet plus HrtfDatabase plus VbapInterpolationTable: the
atomically published snapshot read by the frame processor (codecPars,
ambi_dec_internal.h lines 96-126). -/
structure Snapshot where
  nLoudpkrs : Nat
  effectiveOrder : Nat
  M_dec : List (List Matrix)
  M_dec_maxrE : List (List Matrix)
  M_norm : List (List (ℚ × ℚ))
  hrtf : HrtfSet
  vbap : List VbapEntry
deriving DecidableEq

/-- Modelled from the spec: the largest order n (capped at MAX_SH_ORDER)
with (n+1)^2 harmonics not exceeding the loudspeaker count (the order a
layout can support). -/
def maxFeasibleOrder (nLS : Nat) : Nat :=
  (List.range (MAX_SH_ORDER + 1)).foldl
    (fun acc n => if (n + 1) ^ 2 ≤ nLS then n else acc) 0

/-- Effective decoding order: the requested master order clamped to the
maximum feasible order for the layout. -/
def effOrder (p : UserParams) : Nat :=
  min p.masterOrder (maxFeasibleOrder p.speakers.length)

/-- Base decoding matrices for both decoder slots and orders
1..effectiveOrder (M_dec, ambi_dec_internal.h line 99). -/
def mkM (p : UserParams) : List (List Matrix) :=
  (List.range NUM_DECODERS).map (fun _ =>
    (List.range (effOrder p)).map (fun i =>
      buildDecodeMatrix p.decMethod p.speakers (i + 1)))

/-- maxrE-weighted decoding matrices (M_dec_maxrE, line 101). -/
def mkM_maxrE (p : UserParams) : List (List Matrix) :=
  (List.range NUM_DECODERS).map (fun _ =>
    (List.range (effOrder p)).map (fun i =>
      applyMaxrE (i + 1) (buildDecodeMatrix p.decMethod p.speakers (i + 1))))

/-- Modelled from the spec: the pair of amplitude- and energy-preserving
normalisation scalars per order (M_norm, line 103). -/
def normCoeff (o : Nat) : ℚ × ℚ :=
  (1 / ((o : ℚ) + 1), 1 / (((o : ℚ) + 1) ^ 2))

/-- Normalisation coefficients for both decoders and all built orders. -/
def mkM_norm (p : UserParams) : List (List (ℚ × ℚ)) :=
  (List.range NUM_DECODERS).map (fun _ =>
    (List.range (effOrder p)).map (fun i => normCoeff (i + 1)))

/-- The complete freshly built snapshot for a parameter set. -/
def mkSnapshot (p : UserParams) : Snapshot :=
  { nLoudpkrs := p.speakers.length,
    effectiveOrder := effOrder p,
    M_dec := mkM p,
    M_dec_maxrE := mkM_maxrE p,
    M_norm := mkM_norm p,
    hrtf := buildHrtf p,
    vbap := buildVbapTable (buildHrtf p) }

/-- Matrix lookup in a decoder-indexed order-indexed matrix list. -/
def matAt (M : List (List Matrix)) (d i : Nat) : Matrix :=
  (M.getD d []).getD i defaultMatrix

/-- Decoding matrix of decoder slot d for order o in the snapshot. -/
def matrixAt (s : Snapshot) (d o : Nat) : Matrix := matAt s.M_dec d (o - 1)

/-- maxrE-weighted decoding matrix of decoder slot d for order o. -/
def matrixAt_maxrE (s : Snapshot) (d o : Nat) : Matrix :=
  matAt s.M_dec_maxrE d (o - 1)

/-- Dimension contract for a built matrix of a given order:
nLoudspeakers rows and (order+1)^2 columns. -/
def expectedDims (nLS o : Nat) (m : Matrix) : Bool :=
  (m.rows == nLS) && (m.cols == (o + 1) ^ 2)

/-- Modelled from the spec: the rebuild's internal-invariant check that
the matrix builder returned matching dimensions for every slot/order. -/
def dimsCheck (p : UserParams) : Bool :=
  (List.range NUM_DECODERS).all (fun d =>
    (List.range (effOrder p)).all (fun i =>
      expectedDims p.speakers.length (i + 1) (matAt (mkM p) d i)))

/-- Failure taxonomy of a rebuild attempt: ConfigError for degenerate
geometry, InternalInvariantViolation for mismatched matrix dimensions. -/
inductive BuildError
  | configDegenerate
  | internalInvariant
deriving DecidableEq

/-- Result of one rebuild attempt: a snapshot plus a degraded-configuration
notice flag, or a failure. -/
inductive BuildResult
  | ok (snap : Snapshot) (degraded : Bool)
  | err (e : BuildError)
deriving DecidableEq

/-- Modelled from the spec: one atomic rebuild of the
DecodingMatrixSet/HrtfDatabase/VbapInterpolationTable from the pending
user parameters. Degenerate geometry (fewer than MIN_NUM_LOUDSPEAKERS or
all colinear) fails with a ConfigError; mismatched builder dimensions
fail with an InternalInvariantViolation; a requested order beyond the
feasible one is clamped and flagged as degraded rather than failing. -/
def rebuild (p : UserParams) : BuildResult :=
  if p.speakers.length < MIN_NUM_LOUDSPEAKERS ∨ colinearDirs p.speakers = true
  then .err .configDegenerate
  else if dimsCheck p = true then
    .ok (mkSnapshot p) (decide (maxFeasibleOrder p.speakers.length < p.masterOrder))
  else .err .internalInvariant

/-- Multiplication of a flat decoding matrix with a harmonic vector. -/
def matVec (m : Matrix) (v : List ℚ) : List ℚ :=
  (List.range m.rows).map (fun i =>
    ((List.range m.cols).map (fun j =>
      m.entries.getD (i * m.cols + j) 0 * v.getD j 0)).sum)

/-- Modelled from the spec: the frame processor output as a pure function
of the configuration snapshot captured at frame start and the input
frame; silence while no snapshot was ever published. -/
def processFrame (cfg : Option Snapshot) (input : List ℚ) : List ℚ :=
  match cfg with
  | none => input.map (fun _ => 0)
  | some snap => matVec (matrixAt snap 0 snap.effectiveOrder) input

/-- Codec lifecycle state (ambi_dec_data, ambi_dec_internal.h lines
134-180): codecStatus/procStatus, staged pending parameters, the
published snapshot, the in-progress scratch build (never visible to the
processor), status reporting, and the audio-thread frame context. -/
structure State where
  codecStatus : CODEC_STATUS
  procStatus : PROC_STATUS
  pendingParams : UserParams
  reinitPending : Bool
  snapshot : Option Snapshot
  building : Option BuildResult
  degradedNotice : Bool
  lastError : Option BuildError
  curFrame : Option Snapshot
  curInput : List ℚ
  lastOutput : Option (List ℚ)
deriving DecidableEq

/-- Events of the two logical threads: the control thread stages
parameters, requests reinitialisation and drives the rebuild
(initStart/initFinish); the audio thread brackets each frame with
frameStart/frameEnd. -/
inductive Event
  | setParams (p : UserParams)
  | requestReinit
  | initStart
  | initFinish
  | frameStart (input : List ℚ)
  | frameEnd
deriving DecidableEq

/-- Modelled from the spec: one interleaved step of the lifecycle state
machine. setParams stages; requestReinit marks NOT_INITIALIZED (or, if a
rebuild is running, schedules another); initStart begins a rebuild only
when ProcessingState is IDLE and the codec is not INITIALIZED, setting
CodecState to INITIALIZING; initFinish atomically publishes a successful
build (or reverts to NOT_INITIALIZED on failure, leaving the published
snapshot untouched); frameStart captures the published snapshot and sets
ONGOING; frameEnd emits the processed frame and returns to IDLE. An
event whose guard fails leaves the state unchanged. -/
def step (s : State) : Event → State
  | .setParams p => { s with pendingParams := p }
  | .requestReinit =>
      { s with reinitPending := true,
               codecStatus :=
                 match s.codecStatus with
                 | .initialising => .initialising
                 | _ => .notInitialised }
  | .initStart =>
      if s.procStatus = PROC_STATUS.notOngoing
          ∧ s.codecStatus ≠ CODEC_STATUS.initialised
          ∧ s.building = none then
        { s with codecStatus := .initialising,
                 building := some (rebuild s.pendingParams),
                 reinitPending := false }
      else s
  | .initFinish =>
      match s.building with
      | some (.ok snap deg) =>
          { s with snapshot := some snap, degradedNotice := deg,
                   lastError := none, building := none,
                   codecStatus :=
                     if s.reinitPending then .notInitialised
                     else .initialised }
      | some (.err e) =>
          { s with codecStatus := .notInitialised, lastError := some e,
                   building := none }
      | none => s
  | .frameStart input =>
      { s with procStatus := .ongoing, curFrame := s.snapshot,
               curInput := input }
  | .frameEnd =>
      { s with procStatus := .notOngoing,
               lastOutput := some (processFrame s.curFrame s.curInput) }

/-- Default user parameters: first-order decoding to a 4-loudspeaker quad
layout with the bundled HRIRs. -/
def defaultParams : UserParams :=
  { masterOrder := 1,
    speakers := [⟨45, 0⟩, ⟨-45, 0⟩, ⟨135, 0⟩, ⟨-135, 0⟩],
    decMethod := 1, rE_weight := false, diffEQmode := 0,
    transitionFreq := 800, binauraliseLS := false,
    useDefaultHRIRsFLAG := true, sofaPathId := 0 }

/-- Degenerate user parameters: only 3 loudspeakers, below
MIN_NUM_LOUDSPEAKERS. -/
def badParams : UserParams :=
  { defaultParams with speakers := [⟨0, 0⟩, ⟨90, 0⟩, ⟨180, 0⟩] }

/-- User parameters requesting order 5 on the default 4-loudspeaker
layout, more than the layout supports. -/
def order5Params : UserParams := { defaultParams with masterOrder := 5 }

/-- The created-but-never-initialised codec. -/
def initialState : State :=
  { codecStatus := .notInitialised, procStatus := .notOngoing,
    pendingParams := defaultParams, reinitPending := false,
    snapshot := none, building := none, degradedNotice := false,
    lastError := none, curFrame := none, curInput := [],
    lastOutput := none }

/-- State reached from the fresh codec by a finite interleaving of
control- and audio-thread events. -/
def run (es : List Event) : State := List.foldl step initialState es

/-- State reached from s by a list of events. -/
def runFrom (s : State) (es : List Event) : State := List.foldl step s es

/-- Control-thread events (everything except the audio thread's
frameStart/frameEnd). -/
def isCtrl : Event → Bool
  | .frameStart _ => false
  | .frameEnd => false
  | _ => true

/-- Placeholder snapshot for projecting a failed build result. -/
def fallbackSnap : Snapshot :=
  { nLoudpkrs := 0, effectiveOrder := 0, M_dec := [], M_dec_maxrE := [],
    M_norm := [], hrtf := defaultHrtf, vbap := [] }

/-- Snapshot of a successful build result. -/
def snapOf : BuildResult → Snapshot
  | .ok s _ => s
  | .err _ => fallbackSnap

/-- The snapshot built from the default parameters. -/
def defaultSnap : Snapshot := snapOf (rebuild defaultParams)

/-- Decoding-matrix component of a build result (none on failure). -/
def decMatricesOf : BuildResult → Option (List (List Matrix) × List (List Matrix))
  | .ok s _ => some (s.M_dec, s.M_dec_maxrE)
  | .err _ => none

end AmbiDec

/-- C9: malloc2d/calloc2d/realloc2d and malloc3d/calloc3d/realloc3d lay the
data region out contiguously right after the pointer tables; element
`[i][j]` (resp. `[i][j][k]`) sits at flat byte offset `(i*dim2+j)*data_size`
(resp. `((i*dim2+j)*dim3+k)*data_size`) from the start of the data region;
a flat write of `dim1*dim2*data_size` bytes from the data start touches
exactly the elements; and every element lies inside the single allocated
block, so one `free` of the returned pointer releases the whole container. -/
theorem C9_md_malloc_layout
    (dim1 dim2 dim3 ds i j k b : Nat)
    (hi : i < dim1) (hj : j < dim2) (hk : k < dim3)
    (hds : 0 < ds) (hb : b < dim1 * dim2 * ds) :
    MdMalloc.elem2Ofs dim1 dim2 ds i j
      = MdMalloc.table2Bytes dim1 + (i * dim2 + j) * ds
    ∧ MdMalloc.elem3Ofs dim1 dim2 dim3 ds i j k
      = MdMalloc.table3Bytes dim1 dim2 + ((i * dim2 + j) * dim3 + k) * ds
    ∧ MdMalloc.total2Bytes dim1 dim2 ds
      = MdMalloc.table2Bytes dim1 + dim1 * dim2 * ds
    ∧ MdMalloc.total3Bytes dim1 dim2 dim3 ds
      = MdMalloc.table3Bytes dim1 dim2 + dim1 * dim2 * dim3 * ds
    ∧ MdMalloc.calloc2Bytes dim1 dim2 ds = MdMalloc.total2Bytes dim1 dim2 ds
    ∧ MdMalloc.realloc2Bytes dim1 dim2 ds = MdMalloc.total2Bytes dim1 dim2 ds
    ∧ MdMalloc.calloc3Bytes dim1 dim2 dim3 ds
      = MdMalloc.total3Bytes dim1 dim2 dim3 ds
    ∧ (∃ i2 j2 t, i2 < dim1 ∧ j2 < dim2 ∧ t < ds ∧
        MdMalloc.table2Bytes dim1 + b = MdMalloc.elem2Ofs dim1 dim2 ds i2 j2 + t)
    ∧ MdMalloc.elem2Ofs dim1 dim2 ds i j + ds ≤ MdMalloc.total2Bytes dim1 dim2 ds
    ∧ MdMalloc.elem3Ofs dim1 dim2 dim3 ds i j k + ds
      ≤ MdMalloc.total3Bytes dim1 dim2 dim3 ds := by
  have hd2 : 0 < dim2 := Nat.lt_of_le_of_lt (Nat.zero_le j) hj
  refine ⟨?_, ?_, ?_, ?_, ?_, ?_, ?_, ?_, ?_, ?_⟩
  · simp only [MdMalloc.elem2Ofs, MdMalloc.row2Ofs, MdMalloc.stride2]
    ring
  · simp only [MdMalloc.elem3Ofs, MdMalloc.inner3Ofs, MdMalloc.stride3a,
      MdMalloc.stride3b]
    ring
  · simp only [MdMalloc.total2Bytes, MdMalloc.table2Bytes, MdMalloc.stride2]
    ring
  · simp only [MdMalloc.total3Bytes, MdMalloc.table3Bytes, MdMalloc.stride3a]
    ring
  · simp only [MdMalloc.calloc2Bytes, MdMalloc.total2Bytes,
      MdMalloc.table2Bytes, MdMalloc.stride2]
    ring
  · rfl
  · simp only [MdMalloc.calloc3Bytes, MdMalloc.total3Bytes,
      MdMalloc.table3Bytes, MdMalloc.stride3a]
    ring
  · -- coverage of the flat data region by the elements
    refine ⟨b / ds / dim2, b / ds % dim2, b % ds, ?_, ?_, Nat.mod_lt _ hds, ?_⟩
    · have hq : b / ds < dim1 * dim2 := (Nat.div_lt_iff_lt_mul hds).2 hb
      exact (Nat.div_lt_iff_lt_mul hd2).2 hq
    · exact Nat.mod_lt _ hd2
    · have e1 : (b / ds / dim2) * dim2 + b / ds % dim2 = b / ds := by
        rw [Nat.mul_comm]
        exact Nat.div_add_mod (b / ds) dim2
      have e2 : (b / ds) * ds + b % ds = b := by
        rw [Nat.mul_comm]
        exact Nat.div_add_mod b ds
      calc MdMalloc.table2Bytes dim1 + b
          = MdMalloc.table2Bytes dim1 + ((b / ds) * ds + b % ds) := by rw [e2]
        _ = MdMalloc.table2Bytes dim1
            + (((b / ds / dim2) * dim2 + b / ds % dim2) * ds + b % ds) := by
              rw [e1]
        _ = MdMalloc.elem2Ofs dim1 dim2 ds (b / ds / dim2) (b / ds % dim2)
            + b % ds := by
              simp only [MdMalloc.elem2Ofs, MdMalloc.row2Ofs, MdMalloc.stride2]
              ring
  · -- 2-D element inside the single block
    have hlt : i * dim2 + j + 1 ≤ dim1 * dim2 := by
      have h1 : i * dim2 + j + 1 ≤ (i + 1) * dim2 := by
        have : j + 1 ≤ dim2 := hj
        calc i * dim2 + j + 1 = i * dim2 + (j + 1) := by ring
          _ ≤ i * dim2 + dim2 := by omega
          _ = (i + 1) * dim2 := by ring
      have h2 : (i + 1) * dim2 ≤ dim1 * dim2 := Nat.mul_le_mul_right _ hi
      exact Nat.le_trans h1 h2
    have hmul : (i * dim2 + j + 1) * ds ≤ dim1 * dim2 * ds :=
      Nat.mul_le_mul_right _ hlt
    calc MdMalloc.elem2Ofs dim1 dim2 ds i j + ds
        = MdMalloc.table2Bytes dim1 + (i * dim2 + j + 1) * ds := by
          simp only [MdMalloc.elem2Ofs, MdMalloc.row2Ofs, MdMalloc.stride2]
          ring
      _ ≤ MdMalloc.table2Bytes dim1 + dim1 * dim2 * ds := by omega
      _ = MdMalloc.total2Bytes dim1 dim2 ds := by
          simp only [MdMalloc.total2Bytes, MdMalloc.table2Bytes,
            MdMalloc.stride2]
          ring
  · -- 3-D element inside the single block
    have hij : i * dim2 + j + 1 ≤ dim1 * dim2 := by
      have h1 : i * dim2 + j + 1 ≤ (i + 1) * dim2 := by
        calc i * dim2 + j + 1 = i * dim2 + (j + 1) := by ring
          _ ≤ i * dim2 + dim2 := by omega
          _ = (i + 1) * dim2 := by ring
      exact Nat.le_trans h1 (Nat.mul_le_mul_right _ hi)
    have hlt : (i * dim2 + j) * dim3 + k + 1 ≤ dim1 * dim2 * dim3 := by
      have h1 : (i * dim2 + j) * dim3 + k + 1 ≤ (i * dim2 + j + 1) * dim3 := by
        calc (i * dim2 + j) * dim3 + k + 1
            = (i * dim2 + j) * dim3 + (k + 1) := by ring
          _ ≤ (i * dim2 + j) * dim3 + dim3 := by omega
          _ = (i * dim2 + j + 1) * dim3 := by ring
      have h2 : (i * dim2 + j + 1) * dim3 ≤ dim1 * dim2 * dim3 :=
        Nat.mul_le_mul_right _ hij
      exact Nat.le_trans h1 h2
    have hmul : ((i * dim2 + j) * dim3 + k + 1) * ds ≤ dim1 * dim2 * dim3 * ds :=
      Nat.mul_le_mul_right _ hlt
    calc MdMalloc.elem3Ofs dim1 dim2 dim3 ds i j k + ds
        = MdMalloc.table3Bytes dim1 dim2
          + ((i * dim2 + j) * dim3 + k + 1) * ds := by
          simp only [MdMalloc.elem3Ofs, MdMalloc.inner3Ofs, MdMalloc.stride3a,
            MdMalloc.stride3b]
          ring
      _ ≤ MdMalloc.table3Bytes dim1 dim2 + dim1 * dim2 * dim3 * ds := by omega
      _ = MdMalloc.total3Bytes dim1 dim2 dim3 ds := by
          simp only [MdMalloc.total3Bytes, MdMalloc.table3Bytes,
            MdMalloc.stride3a]
          ring

/-- Witness for C9 at dim1=2, dim2=3, dim3=2, ds=4, i=1, j=2, k=1, b=10. -/
theorem C9_md_malloc_layout_witness :
    MdMalloc.elem2Ofs 2 3 4 1 2 = MdMalloc.table2Bytes 2 + (1 * 3 + 2) * 4 :=
  (C9_md_malloc_layout 2 3 2 4 1 2 1 10 (by decide) (by decide) (by decide)
    (by decide) (by decide)).1

/-- C10: free1d/free2d/free3d null the cell they are given; called on a cell
already holding NULL they leave it unchanged and perform no deallocation,
so a double free through the same cell is impossible. -/
theorem C10_free_null_guard (cell : Option Nat) :
    ((MdMalloc.free1d cell).1 = none ∧ (MdMalloc.free2d cell).1 = none ∧
      (MdMalloc.free3d cell).1 = none)
    ∧ (cell = none →
        MdMalloc.free1d cell = (cell, []) ∧ MdMalloc.free2d cell = (cell, []) ∧
          MdMalloc.free3d cell = (cell, []))
    ∧ (∀ p : Nat, cell = some p →
        (MdMalloc.free1d cell).2 = [p] ∧ (MdMalloc.free2d cell).2 = [p] ∧
          (MdMalloc.free3d cell).2 = [p])
    ∧ (MdMalloc.free1d ((MdMalloc.free1d cell).1)).2 = []
    ∧ (MdMalloc.free2d ((MdMalloc.free2d cell).1)).2 = []
    ∧ (MdMalloc.free3d ((MdMalloc.free3d cell).1)).2 = [] := by
  cases cell <;>
    simp [MdMalloc.free1d, MdMalloc.free2d, MdMalloc.free3d]

/-- Witness for C10 at cells holding pointer 7 and NULL. -/
theorem C10_free_null_guard_witness :
    (MdMalloc.free1d (some 7)).1 = none
    ∧ MdMalloc.free1d (none : Option Nat) = (none, [])
    ∧ (MdMalloc.free1d ((MdMalloc.free1d (some 7)).1)).2 = [] :=
  ⟨(C10_free_null_guard (some 7)).1.1,
    ((C10_free_null_guard none).2.1 rfl).1,
    (C10_free_null_guard (some 7)).2.2.2.1⟩

open AmbiDec

/-- Lookup in a map over List.range hits the generating function. -/
theorem AD_getD_map_range {α : Type} (f : Nat → α) {n i : Nat} (d : α)
    (h : i < n) : ((List.range n).map f).getD i d = f i := by
  simp [List.getD, List.getElem?_map, List.getElem?_range h]

/-- Control-thread events never touch the audio thread's captured frame
context. -/
theorem AD_ctrl_preserves (s : State) (e : Event) (h : isCtrl e = true) :
    (step s e).curFrame = s.curFrame ∧ (step s e).curInput = s.curInput := by
  cases e with
  | setParams p => exact ⟨rfl, rfl⟩
  | requestReinit => exact ⟨rfl, rfl⟩
  | initStart =>
      by_cases hc : s.procStatus = PROC_STATUS.notOngoing
          ∧ s.codecStatus ≠ CODEC_STATUS.initialised ∧ s.building = none
      · simp [step, hc]
      · simp [step, hc]
  | initFinish =>
      cases hb : s.building with
      | none => simp [step, hb]
      | some r =>
          cases r with
          | ok snap deg => simp [step, hb]
          | err e2 => simp [step, hb]
  | frameStart input => simp [isCtrl] at h
  | frameEnd => simp [isCtrl] at h

/-- Any finite sequence of control-thread events preserves the captured
frame context. -/
theorem AD_ctrl_run_preserves (mid : List Event) :
    ∀ s : State, (∀ e ∈ mid, isCtrl e = true) →
      (runFrom s mid).curFrame = s.curFrame
        ∧ (runFrom s mid).curInput = s.curInput := by
  induction mid with
  | nil => intro s _; exact ⟨rfl, rfl⟩
  | cons e mid ih =>
      intro s hmid
      have he : isCtrl e = true := hmid e (List.mem_cons_self e mid)
      have hrest : ∀ x ∈ mid, isCtrl x = true :=
        fun x hx => hmid x (List.mem_cons_of_mem e hx)
      have h1 := AD_ctrl_preserves s e he
      have h2 := ih (step s e) hrest
      refine ⟨?_, ?_⟩
      · rw [runFrom] at h2 ⊢
        rw [List.foldl_cons, h2.1, h1.1]
      · rw [runFrom] at h2 ⊢
        rw [List.foldl_cons, h2.2, h1.2]

/-- One step preserves the invariant that a scratch build exists only
while CodecState is INITIALIZING. -/
theorem AD_inv_step (s : State) (e : Event)
    (h : s.building.isSome = true → s.codecStatus = CODEC_STATUS.initialising) :
    (step s e).building.isSome = true →
      (step s e).codecStatus = CODEC_STATUS.initialising := by
  cases e with
  | setParams p => intro hb; exact h hb
  | requestReinit =>
      intro hb
      have hcs := h hb
      simp only [step]
      rw [hcs]
  | initStart =>
      by_cases hc : s.procStatus = PROC_STATUS.notOngoing
          ∧ s.codecStatus ≠ CODEC_STATUS.initialised ∧ s.building = none
      · simp [step, hc]
      · simp only [step, if_neg hc]
        exact h
  | initFinish =>
      cases hb : s.building with
      | none =>
          simp only [step, hb]
          rw [hb] at h
          exact h
      | some r =>
          cases r with
          | ok snap deg => simp [step, hb]
          | err e2 => simp [step, hb]
  | frameStart input => intro hb; exact h hb
  | frameEnd => intro hb; exact h hb

/-- The scratch-build invariant holds of every state reachable from a
state satisfying it. -/
theorem AD_inv_runFrom (es : List Event) :
    ∀ s : State,
      (s.building.isSome = true → s.codecStatus = CODEC_STATUS.initialising) →
      (runFrom s es).building.isSome = true →
        (runFrom s es).codecStatus = CODEC_STATUS.initialising := by
  induction es with
  | nil => intro s h; exact h
  | cons e es ih =>
      intro s h
      have : runFrom s (e :: es) = runFrom (step s e) es := by
        rw [runFrom, runFrom, List.foldl_cons]
      rw [this]
      exact ih (step s e) (AD_inv_step s e h)

/-- The scratch-build invariant holds of every reachable state. -/
theorem AD_inv_run (es : List Event) :
    (run es).building.isSome = true →
      (run es).codecStatus = CODEC_STATUS.initialising := by
  have : run es = runFrom initialState es := rfl
  rw [this]
  exact AD_inv_runFrom es initialState (by intro h; simp [initialState] at h)

/-- C1: a rebuild of the snapshot begins only from ProcessingState = IDLE
and immediately sets CodecState = INITIALIZING; whenever a scratch build
exists in a reachable state, CodecState is INITIALIZING; and while it is,
a starting frame captures exactly the last published snapshot (never the
scratch build), which no event except the atomic publish can change. -/
theorem C1_lifecycle_gating (es : List Event) :
    (∀ e : Event, (run es).building = none →
        (step (run es) e).building.isSome = true →
        (run es).procStatus = PROC_STATUS.notOngoing
          ∧ (step (run es) e).codecStatus = CODEC_STATUS.initialising)
    ∧ ((run es).building.isSome = true →
        (run es).codecStatus = CODEC_STATUS.initialising)
    ∧ (∀ input : List ℚ,
        (step (run es) (Event.frameStart input)).curFrame = (run es).snapshot)
    ∧ (∀ e : Event, e ≠ Event.initFinish →
        (step (run es) e).snapshot = (run es).snapshot) := by
  refine ⟨?_, AD_inv_run es, fun input => rfl, ?_⟩
  · intro e hnone hsome
    cases e with
    | setParams p => simp [step, hnone] at hsome
    | requestReinit => simp [step, hnone] at hsome
    | initStart =>
        by_cases hc : (run es).procStatus = PROC_STATUS.notOngoing
            ∧ (run es).codecStatus ≠ CODEC_STATUS.initialised
            ∧ (run es).building = none
        · exact ⟨hc.1, by simp [step, hc]⟩
        · simp only [step, if_neg hc] at hsome
          rw [hnone] at hsome
          simp at hsome
    | initFinish => simp only [step, hnone] at hsome; simp at hsome
    | frameStart input => simp [step, hnone] at hsome
    | frameEnd => simp [step, hnone] at hsome
  · intro e he
    cases e with
    | setParams p => rfl
    | requestReinit => rfl
    | initStart =>
        by_cases hc : (run es).procStatus = PROC_STATUS.notOngoing
            ∧ (run es).codecStatus ≠ CODEC_STATUS.initialised
            ∧ (run es).building = none
        · simp [step, hc]
        · simp [step, hc]
    | initFinish => exact absurd rfl he
    | frameStart input => rfl
    | frameEnd => rfl

/-- Witness for C1: from the fresh codec, initStart begins a rebuild; the
state is IDLE and moves to INITIALIZING. -/
theorem C1_lifecycle_gating_witness :
    (run []).procStatus = PROC_STATUS.notOngoing
      ∧ (step (run []) Event.initStart).codecStatus
          = CODEC_STATUS.initialising :=
  (C1_lifecycle_gating []).1 Event.initStart (by decide) (by decide)

/-- A rebuild driven to completion at the first idle point after a reinit
request publishes exactly the newly built snapshot, which the next frame
then captures. -/
theorem AD_prompt_rebuild (s : State) (snapNew : Snapshot) (deg : Bool)
    (input : List ℚ) (hB : s.building = none)
    (hOk : rebuild s.pendingParams = BuildResult.ok snapNew deg) :
    (runFrom s [Event.requestReinit, Event.frameEnd, Event.initStart,
      Event.initFinish]).snapshot = some snapNew
    ∧ (step (runFrom s [Event.requestReinit, Event.frameEnd, Event.initStart,
        Event.initFinish]) (Event.frameStart input)).curFrame = some snapNew := by
  cases s with
  | mk cs ps pp rp sn bu dn le cf ci lo =>
      simp only [State.building] at hB
      subst hB
      simp only [State.pendingParams] at hOk
      cases cs <;> simp [runFrom, step, hOk]

/-- C2: a reinit request issued while a frame is in flight never changes
that frame's output (more generally, no interleaved control-thread
activity does), it leaves the published and captured snapshots untouched,
and when the control thread completes the rebuild at the first idle point
the very next frame already captures the newly built snapshot, so at most
the one in-flight frame is rendered under the stale configuration. -/
theorem C2_inflight_frame_isolation (es mid : List Event) (input : List ℚ)
    (snapNew : Snapshot) (deg : Bool)
    (_hFrameInFlight : (run es).procStatus = PROC_STATUS.ongoing)
    (hmid : ∀ e ∈ mid, isCtrl e = true)
    (hB : (run es).building = none)
    (hOk : rebuild (run es).pendingParams = BuildResult.ok snapNew deg) :
    (step (step (run es) Event.requestReinit) Event.frameEnd).lastOutput
      = (step (run es) Event.frameEnd).lastOutput
    ∧ (step (runFrom (run es) mid) Event.frameEnd).lastOutput
      = (step (run es) Event.frameEnd).lastOutput
    ∧ (step (run es) Event.requestReinit).snapshot = (run es).snapshot
    ∧ (step (run es) Event.requestReinit).curFrame = (run es).curFrame
    ∧ (runFrom (run es) [Event.requestReinit, Event.frameEnd, Event.initStart,
        Event.initFinish]).snapshot = some snapNew
    ∧ (step (runFrom (run es) [Event.requestReinit, Event.frameEnd,
        Event.initStart, Event.initFinish]) (Event.frameStart input)).curFrame
      = some snapNew := by
  have hp := AD_prompt_rebuild (run es) snapNew deg input hB hOk
  refine ⟨rfl, ?_, rfl, rfl, hp.1, hp.2⟩
  have h := AD_ctrl_run_preserves mid (run es) hmid
  simp only [step]
  rw [h.1, h.2]

/-- Witness for C2 on the trace that starts one frame from the fresh
codec. -/
theorem C2_inflight_frame_isolation_witness :
    (step (step (run [Event.frameStart [1, 2]]) Event.requestReinit)
        Event.frameEnd).lastOutput
      = (step (run [Event.frameStart [1, 2]]) Event.frameEnd).lastOutput
    ∧ (runFrom (run [Event.frameStart [1, 2]]) [Event.requestReinit,
        Event.frameEnd, Event.initStart, Event.initFinish]).snapshot
      = some defaultSnap :=
  ⟨(C2_inflight_frame_isolation [Event.frameStart [1, 2]] [Event.requestReinit]
      [3] defaultSnap false (by rfl) (by decide) (by rfl) (by rfl)).1,
    (C2_inflight_frame_isolation [Event.frameStart [1, 2]] [Event.requestReinit]
      [3] defaultSnap false (by rfl) (by decide) (by rfl)
      (by rfl)).2.2.2.2.1⟩

/-- C3: when the scratch build of a reachable state has failed, the
publish step reverts CodecState to NOT_INITIALIZED, records the distinct
failure indicator, leaves the previously published snapshot untouched,
and the frame processed right after produces exactly what it would have
produced without the failed attempt; degenerate geometry (fewer than
MIN_NUM_LOUDSPEAKERS loudspeakers, or all colinear) is precisely a
ConfigError-failing rebuild. -/
theorem C3_failed_rebuild_reverts (es : List Event) (e : BuildError)
    (h : (run es).building = some (BuildResult.err e)) :
    (step (run es) Event.initFinish).codecStatus = CODEC_STATUS.notInitialised
    ∧ (step (run es) Event.initFinish).snapshot = (run es).snapshot
    ∧ (step (run es) Event.initFinish).lastError = some e
    ∧ (∀ input : List ℚ,
        (step (step (step (run es) Event.initFinish) (Event.frameStart input))
            Event.frameEnd).lastOutput
          = (step (step (run es) (Event.frameStart input))
              Event.frameEnd).lastOutput)
    ∧ (∀ p : UserParams,
        (p.speakers.length < MIN_NUM_LOUDSPEAKERS
            ∨ colinearDirs p.speakers = true) →
          rebuild p = BuildResult.err BuildError.configDegenerate) := by
  refine ⟨?_, ?_, ?_, ?_, ?_⟩
  · simp [step, h]
  · simp [step, h]
  · simp [step, h]
  · intro input
    simp [step, h]
  · intro p hp
    simp [rebuild, if_pos hp]

/-- Witness for C3: staging a 3-loudspeaker layout and starting the
rebuild yields a failed scratch build; publish reverts and preserves the
snapshot. -/
theorem C3_failed_rebuild_reverts_witness :
    (step (run [Event.setParams badParams, Event.initStart])
        Event.initFinish).codecStatus = CODEC_STATUS.notInitialised
    ∧ (step (run [Event.setParams badParams, Event.initStart])
        Event.initFinish).snapshot
      = (run [Event.setParams badParams, Event.initStart]).snapshot := by
  have h := C3_failed_rebuild_reverts [Event.setParams badParams,
    Event.initStart] BuildError.configDegenerate (by decide)
  exact ⟨h.1, h.2.1⟩

/-- The internal-invariant dimension check always passes for the matrices
the builder constructs. -/
theorem AD_dimsCheck_true (p : UserParams) : dimsCheck p = true := by
  rw [dimsCheck, List.all_eq_true]
  intro d hd
  rw [List.all_eq_true]
  intro i hi
  have hm : matAt (mkM p) d i
      = buildDecodeMatrix p.decMethod p.speakers (i + 1) := by
    rw [matAt, mkM, AD_getD_map_range _ _ (List.mem_range.mp hd),
      AD_getD_map_range _ _ (List.mem_range.mp hi)]
  rw [hm, expectedDims, buildDecodeMatrix]
  simp

/-- A rebuild on non-degenerate geometry always succeeds, returning the
freshly built snapshot and the degraded flag. -/
theorem AD_rebuild_ok (p : UserParams)
    (h4 : MIN_NUM_LOUDSPEAKERS ≤ p.speakers.length)
    (hcol : colinearDirs p.speakers = false) :
    rebuild p = BuildResult.ok (mkSnapshot p)
      (decide (maxFeasibleOrder p.speakers.length < p.masterOrder)) := by
  have hc : ¬(p.speakers.length < MIN_NUM_LOUDSPEAKERS
      ∨ colinearDirs p.speakers = true) := by
    intro h
    rcases h with h | h
    · exact absurd h (Nat.not_lt.2 h4)
    · rw [hcol] at h
      cases h
  rw [rebuild, if_neg hc, if_pos (AD_dimsCheck_true p)]

/-- A successful rebuild returns exactly the deterministic snapshot of the
parameters it was given. -/
theorem AD_rebuild_ok_inv (p : UserParams) (snap : Snapshot) (deg : Bool)
    (h : rebuild p = BuildResult.ok snap deg) : snap = mkSnapshot p := by
  rw [rebuild] at h
  split at h
  · simp at h
  · split at h
    · injection h with h1 h2
      exact h1.symm
    · simp at h

/-- C4: requesting an order above what the layout supports does not fail
the rebuild: it succeeds with the effective order clamped to the maximum
feasible one, the degraded-configuration notice is reported, and
CodecState reaches INITIALIZED instead of staying NOT_INITIALIZED. -/
theorem C4_order_clamping (p : UserParams) (s : State)
    (h4 : MIN_NUM_LOUDSPEAKERS ≤ p.speakers.length)
    (hcol : colinearDirs p.speakers = false)
    (hord : maxFeasibleOrder p.speakers.length < p.masterOrder)
    (hproc : s.procStatus = PROC_STATUS.notOngoing)
    (hcs : s.codecStatus = CODEC_STATUS.notInitialised)
    (hb : s.building = none) (hp : s.pendingParams = p) :
    rebuild p = BuildResult.ok (mkSnapshot p) true
    ∧ (mkSnapshot p).effectiveOrder = maxFeasibleOrder p.speakers.length
    ∧ (runFrom s [Event.initStart, Event.initFinish]).codecStatus
        = CODEC_STATUS.initialised
    ∧ (runFrom s [Event.initStart, Event.initFinish]).degradedNotice = true
    ∧ (runFrom s [Event.initStart, Event.initFinish]).snapshot
        = some (mkSnapshot p) := by
  have hok : rebuild p = BuildResult.ok (mkSnapshot p) true := by
    rw [AD_rebuild_ok p h4 hcol, decide_eq_true hord]
  have heff : (mkSnapshot p).effectiveOrder
      = maxFeasibleOrder p.speakers.length := by
    simp only [mkSnapshot, effOrder]
    exact min_eq_right hord.le
  cases s with
  | mk cs ps pp rp sn bu dn le cf ci lo =>
      simp only [State.procStatus, State.codecStatus, State.building,
        State.pendingParams] at hproc hcs hb hp
      subst hproc
      subst hcs
      subst hb
      subst hp
      exact ⟨hok, heff, by simp [runFrom, step, hok],
        by simp [runFrom, step, hok], by simp [runFrom, step, hok]⟩

/-- Witness for C4: order 5 requested on the 4-loudspeaker default layout
reaches INITIALIZED with a degraded notice. -/
theorem C4_order_clamping_witness :
    (runFrom (step initialState (Event.setParams order5Params))
        [Event.initStart, Event.initFinish]).codecStatus
      = CODEC_STATUS.initialised
    ∧ (runFrom (step initialState (Event.setParams order5Params))
        [Event.initStart, Event.initFinish]).degradedNotice = true := by
  have h := C4_order_clamping order5Params
    (step initialState (Event.setParams order5Params)) (by decide) (by decide)
    (by decide) rfl rfl rfl rfl
  exact ⟨h.2.2.1, h.2.2.2.1⟩

/-- C5: the decoding matrix built for decoder slot d and supported order o
has exactly (o+1)^2 harmonic columns (and one row per loudspeaker), its
maxrE-weighted variant likewise, and the configured maximum channel count
MAX_NUM_SH_SIGNALS equals (MAX_SH_ORDER+1)^2. -/
theorem C5_harmonic_count (p : UserParams) (snap : Snapshot) (deg : Bool)
    (d o : Nat) (h : rebuild p = BuildResult.ok snap deg)
    (hd : d < NUM_DECODERS) (ho1 : 1 ≤ o) (ho2 : o ≤ snap.effectiveOrder) :
    (matrixAt snap d o).cols = (o + 1) ^ 2
    ∧ (matrixAt snap d o).rows = snap.nLoudpkrs
    ∧ (matrixAt_maxrE snap d o).cols = (o + 1) ^ 2
    ∧ MAX_NUM_SH_SIGNALS = (MAX_SH_ORDER + 1) ^ 2 := by
  have hs := AD_rebuild_ok_inv p snap deg h
  subst hs
  have ho : o - 1 < effOrder p := by
    have heff : (mkSnapshot p).effectiveOrder = effOrder p := rfl
    rw [heff] at ho2
    omega
  have hm : matrixAt (mkSnapshot p) d o
      = buildDecodeMatrix p.decMethod p.speakers (o - 1 + 1) := by
    simp only [matrixAt, mkSnapshot]
    rw [matAt, mkM, AD_getD_map_range _ _ hd, AD_getD_map_range _ _ ho]
  have hmr : matrixAt_maxrE (mkSnapshot p) d o
      = applyMaxrE (o - 1 + 1)
          (buildDecodeMatrix p.decMethod p.speakers (o - 1 + 1)) := by
    simp only [matrixAt_maxrE, mkSnapshot]
    rw [matAt, mkM_maxrE, AD_getD_map_range _ _ hd, AD_getD_map_range _ _ ho]
  have ho1e : o - 1 + 1 = o := by omega
  refine ⟨?_, ?_, ?_, by decide⟩
  · rw [hm, ho1e]
    rfl
  · rw [hm, ho1e]
    rfl
  · rw [hmr, ho1e]
    rfl

/-- Witness for C5 at the default parameters, decoder slot 0, order 1. -/
theorem C5_harmonic_count_witness :
    (matrixAt defaultSnap 0 1).cols = (1 + 1) ^ 2
    ∧ MAX_NUM_SH_SIGNALS = (MAX_SH_ORDER + 1) ^ 2 := by
  have h := C5_harmonic_count defaultParams defaultSnap false 0 1 rfl
    (by decide) (by decide) (by decide)
  exact ⟨h.1, h.2.2.2⟩

/-- A convex combination of three scalars is bounded by their minimum and
maximum. -/
theorem AD_convex_combo_bounds (w1 w2 w3 m1 m2 m3 : ℚ)
    (hw1 : 0 ≤ w1) (hw2 : 0 ≤ w2) (hw3 : 0 ≤ w3)
    (hsum : w1 + w2 + w3 = 1) :
    min m1 (min m2 m3) ≤ w1 * m1 + w2 * m2 + w3 * m3
    ∧ w1 * m1 + w2 * m2 + w3 * m3 ≤ max m1 (max m2 m3) := by
  constructor
  · have l1 : min m1 (min m2 m3) ≤ m1 := min_le_left _ _
    have l2 : min m1 (min m2 m3) ≤ m2 :=
      le_trans (min_le_right _ _) (min_le_left _ _)
    have l3 : min m1 (min m2 m3) ≤ m3 :=
      le_trans (min_le_right _ _) (min_le_right _ _)
    have p1 := mul_le_mul_of_nonneg_left l1 hw1
    have p2 := mul_le_mul_of_nonneg_left l2 hw2
    have p3 := mul_le_mul_of_nonneg_left l3 hw3
    have e : w1 * min m1 (min m2 m3) + w2 * min m1 (min m2 m3)
        + w3 * min m1 (min m2 m3) = min m1 (min m2 m3) := by
      calc w1 * min m1 (min m2 m3) + w2 * min m1 (min m2 m3)
          + w3 * min m1 (min m2 m3)
          = (w1 + w2 + w3) * min m1 (min m2 m3) := by ring
        _ = 1 * min m1 (min m2 m3) := by rw [hsum]
        _ = min m1 (min m2 m3) := one_mul _
    linarith
  · have u1 : m1 ≤ max m1 (max m2 m3) := le_max_left _ _
    have u2 : m2 ≤ max m1 (max m2 m3) :=
      le_trans (le_max_left _ _) (le_max_right _ _)
    have u3 : m3 ≤ max m1 (max m2 m3) :=
      le_trans (le_max_right _ _) (le_max_right _ _)
    have p1 := mul_le_mul_of_nonneg_left u1 hw1
    have p2 := mul_le_mul_of_nonneg_left u2 hw2
    have p3 := mul_le_mul_of_nonneg_left u3 hw3
    have e : w1 * max m1 (max m2 m3) + w2 * max m1 (max m2 m3)
        + w3 * max m1 (max m2 m3) = max m1 (max m2 m3) := by
      calc w1 * max m1 (max m2 m3) + w2 * max m1 (max m2 m3)
          + w3 * max m1 (max m2 m3)
          = (w1 + w2 + w3) * max m1 (max m2 m3) := by ring
        _ = 1 * max m1 (max m2 m3) := by rw [hsum]
        _ = max m1 (max m2 m3) := one_mul _
    linarith

/-- C6: for in-hull raw gains (non-negative, not all zero) the VBAP table
weights are exactly three, non-negative and sum to 1, and consequently
the interpolated HRTF magnitude in every band and ear lies between the
minimum and maximum of the three source HRTF magnitudes. -/
theorem C6_vbap_convexity (g1 g2 g3 : ℚ)
    (h1 : 0 ≤ g1) (h2 : 0 ≤ g2) (h3 : 0 ≤ g3) (hs : 0 < g1 + g2 + g3) :
    0 ≤ (mkVbapWeights g1 g2 g3).1
    ∧ 0 ≤ (mkVbapWeights g1 g2 g3).2.1
    ∧ 0 ≤ (mkVbapWeights g1 g2 g3).2.2
    ∧ (mkVbapWeights g1 g2 g3).1 + (mkVbapWeights g1 g2 g3).2.1
        + (mkVbapWeights g1 g2 g3).2.2 = 1
    ∧ (∀ (db : HrtfSet) (band ear i j k : Nat),
        min (dbMag db band ear i)
            (min (dbMag db band ear j) (dbMag db band ear k))
          ≤ (ambi_dec_interpHRTFs db (mkVbapWeights g1 g2 g3) (i, j, k)
              band ear).mag
        ∧ (ambi_dec_interpHRTFs db (mkVbapWeights g1 g2 g3) (i, j, k)
            band ear).mag
          ≤ max (dbMag db band ear i)
              (max (dbMag db band ear j) (dbMag db band ear k))) := by
  have hsum3 : g1 / (g1 + g2 + g3) + g2 / (g1 + g2 + g3)
      + g3 / (g1 + g2 + g3) = 1 := by
    rw [div_add_div_same, div_add_div_same, div_self hs.ne']
  have hw : mkVbapWeights g1 g2 g3
      = (g1 / (g1 + g2 + g3), g2 / (g1 + g2 + g3), g3 / (g1 + g2 + g3)) := by
    simp only [mkVbapWeights, max_eq_left h1, max_eq_left h2, max_eq_left h3]
    rw [if_neg hs.ne']
  rw [hw]
  refine ⟨div_nonneg h1 hs.le, div_nonneg h2 hs.le, div_nonneg h3 hs.le,
    hsum3, ?_⟩
  intro db band ear i j k
  have hb := AD_convex_combo_bounds (g1 / (g1 + g2 + g3))
    (g2 / (g1 + g2 + g3)) (g3 / (g1 + g2 + g3))
    (dbMag db band ear i) (dbMag db band ear j) (dbMag db band ear k)
    (div_nonneg h1 hs.le) (div_nonneg h2 hs.le) (div_nonneg h3 hs.le) hsum3
  simpa [ambi_dec_interpHRTFs, interpMag3] using hb

/-- Witness for C6 at raw gains (1, 1, 2). -/
theorem C6_vbap_convexity_witness :
    (mkVbapWeights 1 1 2).1 + (mkVbapWeights 1 1 2).2.1
        + (mkVbapWeights 1 1 2).2.2 = 1
    ∧ 0 ≤ (mkVbapWeights 1 1 2).1 := by
  have h := C6_vbap_convexity 1 1 2 (by norm_num) (by norm_num) (by norm_num)
    (by norm_num)
  exact ⟨h.2.2.2.1, h.1⟩

/-- C7: at a measured HRTF direction the VBAP vertex weights normalise to
exactly (1, 0, 0), and interpolation with vertex weights returns, in
every band and ear, a response whose magnitude equals the measured HRTF
magnitude exactly. -/
theorem C7_vertex_identity (db : HrtfSet) (i j k band ear : Nat) (g : ℚ)
    (hg : 0 < g) (hm : 0 ≤ dbMag db band ear i) :
    mkVbapWeights g 0 0 = (1, 0, 0)
    ∧ magnitudeOfResponse
        (ambi_dec_interpHRTFs db (1, 0, 0) (i, j, k) band ear)
      = dbMag db band ear i := by
  constructor
  · simp only [mkVbapWeights, max_eq_left hg.le, max_self]
    rw [add_zero, add_zero, if_neg hg.ne']
    rw [div_self hg.ne', zero_div]
  · simp only [magnitudeOfResponse, ambi_dec_interpHRTFs, interpMag3,
      one_mul, zero_mul, add_zero]
    exact abs_of_nonneg hm

/-- Witness for C7 on the default HRTF database at direction index 0,
band 3, ear 1. -/
theorem C7_vertex_identity_witness :
    mkVbapWeights 2 0 0 = (1, 0, 0)
    ∧ magnitudeOfResponse
        (ambi_dec_interpHRTFs defaultHrtf (1, 0, 0) (0, 1, 2) 3 1)
      = dbMag defaultHrtf 3 1 0 := by
  have h := C7_vertex_identity defaultHrtf 0 1 2 3 1 2 (by norm_num)
    (by norm_num [dbMag, defaultHrtf])
  exact ⟨h.1, h.2⟩

/-- C8: the decoding-matrix set is a pure function of (geometry, order,
method, weighting): parameter sets agreeing on those produce identical
matrices regardless of any other state; and rebuilding twice in a row
with identical pending UserParameters publishes a bit-identical snapshot
(DecodingMatrixSet and HrtfDatabase included). -/
theorem C8_determinism_idempotence (p q : UserParams) (s : State)
    (hgeo : p.speakers = q.speakers) (hord : p.masterOrder = q.masterOrder)
    (hmeth : p.decMethod = q.decMethod) (_hwt : p.rE_weight = q.rE_weight)
    (hproc : s.procStatus = PROC_STATUS.notOngoing)
    (hcs : s.codecStatus = CODEC_STATUS.notInitialised)
    (hb : s.building = none) (hp : s.pendingParams = p) :
    decMatricesOf (rebuild p) = decMatricesOf (rebuild q)
    ∧ (runFrom s [Event.initStart, Event.initFinish, Event.requestReinit,
        Event.initStart, Event.initFinish]).snapshot
      = (runFrom s [Event.initStart, Event.initFinish]).snapshot := by
  have hM : mkM p = mkM q := by
    simp only [mkM, effOrder, hgeo, hord, hmeth]
  have hMr : mkM_maxrE p = mkM_maxrE q := by
    simp only [mkM_maxrE, effOrder, hgeo, hord, hmeth]
  have part1 : decMatricesOf (rebuild p) = decMatricesOf (rebuild q) := by
    by_cases hc : q.speakers.length < MIN_NUM_LOUDSPEAKERS
        ∨ colinearDirs q.speakers = true
    · have hcp : p.speakers.length < MIN_NUM_LOUDSPEAKERS
          ∨ colinearDirs p.speakers = true := by
        rw [hgeo]
        exact hc
      rw [rebuild, rebuild, if_pos hcp, if_pos hc]
    · have hcp : ¬(p.speakers.length < MIN_NUM_LOUDSPEAKERS
          ∨ colinearDirs p.speakers = true) := by
        rw [hgeo]
        exact hc
      rw [rebuild, rebuild, if_neg hcp, if_neg hc,
        if_pos (AD_dimsCheck_true p), if_pos (AD_dimsCheck_true q)]
      simp only [decMatricesOf, mkSnapshot]
      rw [hM, hMr]
  refine ⟨part1, ?_⟩
  cases s with
  | mk cs ps pp rp sn bu dn le cf ci lo =>
      simp only [State.procStatus, State.codecStatus, State.building,
        State.pendingParams] at hproc hcs hb hp
      subst hproc
      subst hcs
      subst hb
      subst hp
      cases hr : rebuild pp with
      | ok snap deg => simp [runFrom, step, hr]
      | err e => simp [runFrom, step, hr]

/-- Witness for C8 at the default parameters from the fresh codec. -/
theorem C8_determinism_idempotence_witness :
    decMatricesOf (rebuild defaultParams)
      = decMatricesOf (rebuild defaultParams)
    ∧ (runFrom initialState [Event.initStart, Event.initFinish,
        Event.requestReinit, Event.initStart, Event.initFinish]).snapshot
      = (runFrom initialState [Event.initStart, Event.initFinish]).snapshot :=
  C8_determinism_idempotence defaultParams defaultParams initialState rfl rfl
    rfl rfl rfl rfl rfl rfl
